import Mathlib

/-!
Verification of the checkpoint store in src/src/main/checkpointer/sqljs-saver.ts.

The saver keeps two SQL tables (checkpoints and writes) in an in-memory
sql.js engine and periodically exports the whole image to one backing file.
This file embeds the data model and the public operations (put, putWrites,
getTuple, list, deleteThread, initialize/flush scheduling state) as pure
Lean functions over explicit table states, and proves the documented
properties about them.

TEXT values are compared by the engine with the BINARY collation: bytewise
comparison of the UTF-8 encodings, which coincides with lexicographic
comparison of the codepoint sequences. `lexLt` below is that order on
character lists, `strLt` its lift to `String`.
-/

/-- Lexicographic strict order on character lists: the model of the BINARY
collation used by the SQL engine for TEXT comparison. -/
def lexLt : List Char → List Char → Bool
  | [], [] => false
  | [], _ :: _ => true
  | _ :: _, [] => false
  | c :: cs, d :: ds => if c < d then true else if d < c then false else lexLt cs ds

/-- Strict order on strings as the engine compares TEXT values. -/
def strLt (a b : String) : Bool := lexLt a.data b.data

theorem lexLt_irrefl (l : List Char) : lexLt l l = false := by
  induction l with
  | nil => rfl
  | cons c cs ih => simp [lexLt, lt_irrefl, ih]

theorem lexLt_trans : ∀ {a b c : List Char},
    lexLt a b = true → lexLt b c = true → lexLt a c = true := by
  intro a
  induction a with
  | nil =>
    intro b c h1 h2
    cases b with
    | nil => exact absurd h1 (by simp [lexLt])
    | cons y ys =>
      cases c with
      | nil => exact absurd h2 (by simp [lexLt])
      | cons z zs => simp [lexLt]
  | cons x xs ih =>
    intro b c h1 h2
    cases b with
    | nil => exact absurd h1 (by simp [lexLt])
    | cons y ys =>
      cases c with
      | nil => exact absurd h2 (by simp [lexLt])
      | cons z zs =>
        simp only [lexLt] at h1 h2 ⊢
        rcases lt_trichotomy x y with hxy | hxy | hxy
        · rcases lt_trichotomy y z with hyz | hyz | hyz
          · simp [lt_trans hxy hyz]
          · subst hyz; simp [hxy]
          · -- x < y, z < y: h2 forces contradiction
            simp [asymm hyz, hyz] at h2
        · subst hxy
          rcases lt_trichotomy x z with hxz | hxz | hxz
          · simp [hxz]
          · subst hxz
            simp only [lt_irrefl, if_false] at h1 h2 ⊢
            exact ih h1 h2
          · simp [asymm hxz, hxz] at h2
        · simp [asymm hxy, hxy] at h1

theorem lexLt_connex : ∀ {a b : List Char},
    lexLt a b = false → lexLt b a = false → a = b := by
  intro a
  induction a with
  | nil =>
    intro b h1 _
    cases b with
    | nil => rfl
    | cons y ys => exact absurd h1 (by simp [lexLt])
  | cons x xs ih =>
    intro b h1 h2
    cases b with
    | nil => exact absurd h2 (by simp [lexLt])
    | cons y ys =>
      simp only [lexLt] at h1 h2
      rcases lt_trichotomy x y with hxy | hxy | hxy
      · simp [hxy] at h1
      · subst hxy
        simp only [lt_irrefl, if_neg] at h1 h2
        simp at h1 h2
        rw [ih h1 h2]
      · simp [hxy] at h2

theorem lexLt_asymm {a b : List Char} (h : lexLt a b = true) : lexLt b a = false := by
  by_contra hc
  have hba : lexLt b a = true := by
    cases hx : lexLt b a with
    | false => exact absurd hx hc
    | true => rfl
  have : lexLt a a = true := lexLt_trans h hba
  rw [lexLt_irrefl] at this
  exact Bool.false_ne_true this

theorem strLt_irrefl (s : String) : strLt s s = false := lexLt_irrefl s.data

theorem strLt_trans {a b c : String} (h1 : strLt a b = true) (h2 : strLt b c = true) :
    strLt a c = true := lexLt_trans h1 h2

theorem strLt_connex {a b : String} (h1 : strLt a b = false) (h2 : strLt b a = false) :
    a = b := by
  apply String.ext
  exact lexLt_connex h1 h2

theorem strLt_asymm {a b : String} (h : strLt a b = true) : strLt b a = false :=
  lexLt_asymm h

/-! The data model: the two tables of the store (source lines 16-30 and the
schema created by setup at lines 99-135). -/

/-- One row of the checkpoints table. -/
structure CkptRow where
  thread_id : String
  checkpoint_ns : String
  checkpoint_id : String
  parent_checkpoint_id : Option String
  type : String
  checkpoint : String
  metadata : String
deriving DecidableEq

/-- One row of the writes table. -/
structure WriteRow where
  thread_id : String
  checkpoint_ns : String
  checkpoint_id : String
  task_id : String
  idx : Nat
  channel : String
  type : String
  value : String
deriving DecidableEq

/-- The engine state: both tables, rows listed in rowid (insertion) order. -/
structure DB where
  checkpoints : List CkptRow
  writes : List WriteRow
deriving DecidableEq

def DB.empty : DB := ⟨[], []⟩

/-- The primary key of the checkpoints table. -/
def ckptKey (r : CkptRow) : String × String × String :=
  (r.thread_id, r.checkpoint_ns, r.checkpoint_id)

/-- The primary key of the writes table. -/
def writeKey (r : WriteRow) : String × String × String × String × Nat :=
  (r.thread_id, r.checkpoint_ns, r.checkpoint_id, r.task_id, r.idx)

/-- INSERT OR REPLACE on a table with a declared primary key: the engine
removes any row holding the same key and appends the fresh row under a
fresh rowid. -/
def upsertCkpt (db : DB) (r : CkptRow) : DB :=
  { db with checkpoints :=
      db.checkpoints.filter (fun q => decide (ckptKey q ≠ ckptKey r)) ++ [r] }

/-- INSERT OR REPLACE into the writes table. -/
def upsertWrite (db : DB) (r : WriteRow) : DB :=
  { db with writes :=
      db.writes.filter (fun q => decide (writeKey q ≠ writeKey r)) ++ [r] }

/-- The checkpoint object handed to put: the saver reads only its id field
and hands the whole object to the serialization adapter (copyCheckpoint
produces a value-identical copy, so it is the identity here). -/
structure Checkpoint where
  id : String
  body : String
deriving DecidableEq

/-- Checkpoint metadata is an opaque payload for the saver. -/
abbrev Metadata := String

/-- A channel value carried by a pending write is an opaque payload. -/
abbrev Value := String

/-- The serialization adapter (SerializerProtocol): dumpsTyped returns a
(type tag, serialized text) pair and loadsTyped decodes such a pair. The
generic protocol serves three payload kinds; this is its typed view. -/
structure Serde where
  dumpsCkpt : Checkpoint → String × String
  loadsCkpt : String → String → Checkpoint
  dumpsMeta : Metadata → String × String
  loadsMeta : String → String → Metadata
  dumpsVal : Value → String × String
  loadsVal : String → String → Value

/-- The configurable record of a RunnableConfig; each field may be absent. -/
structure Configurable where
  thread_id : Option String
  checkpoint_ns : Option String
  checkpoint_id : Option String
deriving DecidableEq

/-- A RunnableConfig as the saver reads it: the configurable record itself
may be absent. -/
structure RunnableConfig where
  configurable : Option Configurable
deriving DecidableEq

/-- JS truthiness of an optional string field: both undefined and the empty
string are falsy. -/
def truthy : Option String → Bool
  | none => false
  | some s => decide (s ≠ "")

/-- The distinguishable failures the saver throws (source messages: Empty
configuration supplied; Missing thread_id; Missing checkpoint_id; Failed to
serialize checkpoint and metadata to the same type). -/
inductive SaverError where
  | emptyConfig
  | missingThreadId
  | missingCheckpointId
  | serializationMismatch
deriving DecidableEq

/-- Descending comparison over checkpoint_id: ORDER BY checkpoint_id DESC. -/
def ckptGe (a b : CkptRow) : Prop := strLt a.checkpoint_id b.checkpoint_id = false

/-- Strict descending comparison over checkpoint_id. -/
def ckptGt (a b : CkptRow) : Prop := strLt b.checkpoint_id a.checkpoint_id = true

/-- Ascending (task_id, idx) comparison on write rows: the order in which the
engine scans the automatic index of the primary key of the writes table when
a SELECT constrains (thread_id, checkpoint_ns, checkpoint_id) by equality.
The pending-writes SELECT (source lines 206-210 and 296-301) has no ORDER BY,
so its row order is exactly that index scan order. -/
def wLe (a b : WriteRow) : Prop :=
  strLt a.task_id b.task_id = true ∨ (a.task_id = b.task_id ∧ a.idx ≤ b.idx)

/-- Strict ascending (task_id, idx) comparison on write rows. -/
def wLt (a b : WriteRow) : Prop :=
  strLt a.task_id b.task_id = true ∨ (a.task_id = b.task_id ∧ a.idx < b.idx)

instance : DecidableRel ckptGe := fun a b =>
  inferInstanceAs (Decidable (strLt a.checkpoint_id b.checkpoint_id = false))

instance : DecidableRel wLe := fun a b =>
  inferInstanceAs
    (Decidable (strLt a.task_id b.task_id = true ∨ (a.task_id = b.task_id ∧ a.idx ≤ b.idx)))

instance : IsTotal CkptRow ckptGe := by
  constructor
  intro a b
  unfold ckptGe
  cases h : strLt a.checkpoint_id b.checkpoint_id with
  | false => exact Or.inl rfl
  | true => exact Or.inr (strLt_asymm h)

instance : IsTrans CkptRow ckptGe := by
  constructor
  intro a b c h1 h2
  unfold ckptGe at h1 h2 ⊢
  cases h : strLt a.checkpoint_id c.checkpoint_id with
  | false => rfl
  | true =>
    rcases hab : strLt b.checkpoint_id a.checkpoint_id with _ | _
    · have := strLt_connex h1 hab
      rw [this] at h
      rw [h] at h2
      exact Bool.noConfusion h2
    · have := strLt_trans hab h
      rw [this] at h2
      exact Bool.noConfusion h2

instance : IsTotal WriteRow wLe := by
  constructor
  intro a b
  unfold wLe
  cases h : strLt a.task_id b.task_id with
  | true => exact Or.inl (Or.inl rfl)
  | false =>
    cases h2 : strLt b.task_id a.task_id with
    | true => exact Or.inr (Or.inl rfl)
    | false =>
      have he := strLt_connex h h2
      rcases Nat.le_total a.idx b.idx with hi | hi
      · exact Or.inl (Or.inr ⟨he, hi⟩)
      · exact Or.inr (Or.inr ⟨he.symm, hi⟩)

instance : IsTrans WriteRow wLe := by
  constructor
  intro a b c h1 h2
  unfold wLe at h1 h2 ⊢
  rcases h1 with h1 | ⟨h1e, h1i⟩
  · rcases h2 with h2 | ⟨h2e, _⟩
    · exact Or.inl (strLt_trans h1 h2)
    · exact Or.inl (h2e ▸ h1)
  · rcases h2 with h2 | ⟨h2e, h2i⟩
    · exact Or.inl (h1e ▸ h2)
    · exact Or.inr ⟨h1e.trans h2e, Nat.le_trans h1i h2i⟩

/-! The repository operations, translated from sqljs-saver.ts. -/

/-- Rows of the checkpoints table matching one (thread_id, checkpoint_ns)
pair, ordered by ORDER BY checkpoint_id DESC (getTuple lines 183-191, list
lines 272-287). -/
def selectCkpts (db : DB) (t ns : String) : List CkptRow :=
  List.insertionSort ckptGe
    (db.checkpoints.filter (fun r => decide (r.thread_id = t ∧ r.checkpoint_ns = ns)))

/-- The pending-writes lookup shared by getTuple (lines 206-218) and list
(lines 296-309): every write row of one checkpoint key, in the scan order of
the automatic primary-key index. -/
def selectWrites (db : DB) (t ns cid : String) : List WriteRow :=
  List.insertionSort wLe
    (db.writes.filter
      (fun r => decide (r.thread_id = t ∧ r.checkpoint_ns = ns ∧ r.checkpoint_id = cid)))

/-- One pending-write entry of a tuple: [task_id, channel, decoded value]. -/
def decodeWrite (serde : Serde) (w : WriteRow) : String × String × Value :=
  (w.task_id, w.channel, serde.loadsVal w.type w.value)

/-- The configurable reference built from a row (lines 227-233, 313-319). -/
def rowConfig (r : CkptRow) : RunnableConfig :=
  ⟨some ⟨some r.thread_id, some r.checkpoint_ns, some r.checkpoint_id⟩⟩

/-- The parent reference of a row: present exactly when the stored
parent_checkpoint_id is truthy (lines 244-252, 331-339). -/
def rowParentConfig (r : CkptRow) : Option RunnableConfig :=
  if truthy r.parent_checkpoint_id then
    some ⟨some ⟨some r.thread_id, some r.checkpoint_ns, r.parent_checkpoint_id⟩⟩
  else none

/-- The tuple a saver read returns. -/
structure CheckpointTuple where
  config : RunnableConfig
  checkpoint : Checkpoint
  metadata : Metadata
  parentConfig : Option RunnableConfig
  pendingWrites : List (String × String × Value)
deriving DecidableEq

/-- The tuple built from one row: decoded checkpoint and metadata, parent
reference, and the pending writes of the key of the row. -/
def rowTuple (serde : Serde) (db : DB) (cfg : RunnableConfig) (r : CkptRow) : CheckpointTuple :=
  { config := cfg
    checkpoint := serde.loadsCkpt r.type r.checkpoint
    metadata := serde.loadsMeta r.type r.metadata
    parentConfig := rowParentConfig r
    pendingWrites := (selectWrites db r.thread_id r.checkpoint_ns r.checkpoint_id).map
      (decodeWrite serde) }

/-- The default configurable when the record is absent. -/
def noConfigurable : Configurable := ⟨none, none, none⟩

/-- getTuple (lines 171-258) over the table state. When checkpoint_id is
truthy the lookup is by exact key (finalConfig is the caller config);
otherwise the first row of ORDER BY checkpoint_id DESC LIMIT 1 is returned
(finalConfig is built from the row). When thread_id is undefined the bind
call drops it, the trailing SQL parameter stays NULL and the WHERE clause
matches no row, so the result is not-found. -/
def getTuple (serde : Serde) (cfg : RunnableConfig) (db : DB) : Option CheckpointTuple :=
  match (cfg.configurable.getD noConfigurable).thread_id with
  | none => none
  | some t =>
    if truthy (cfg.configurable.getD noConfigurable).checkpoint_id then
      match (db.checkpoints.filter (fun r =>
          decide (r.thread_id = t ∧
            r.checkpoint_ns = (cfg.configurable.getD noConfigurable).checkpoint_ns.getD "" ∧
            r.checkpoint_id = (cfg.configurable.getD noConfigurable).checkpoint_id.getD ""))).head? with
      | none => none
      | some row => some (rowTuple serde db cfg row)
    else
      match (selectCkpts db t
          ((cfg.configurable.getD noConfigurable).checkpoint_ns.getD "")).head? with
      | none => none
      | some row => some (rowTuple serde db (rowConfig row) row)

/-- The options of list. -/
structure CheckpointListOptions where
  limit : Option Nat
  before : Option RunnableConfig
deriving DecidableEq

/-- The checkpoint_id the before option carries, through optional chaining. -/
def beforeId (opts : CheckpointListOptions) : Option String :=
  (opts.before.bind (fun c => c.configurable)).bind (fun c => c.checkpoint_id)

/-- The WHERE clause of list: the (thread_id, checkpoint_ns) match, plus the
exclusive before bound, which is applied only when its checkpoint_id is
truthy. -/
def listFiltered (db : DB) (t ns : String) (opts : CheckpointListOptions) : List CkptRow :=
  if truthy (beforeId opts) then
    (db.checkpoints.filter (fun r => decide (r.thread_id = t ∧ r.checkpoint_ns = ns))).filter
      (fun r => strLt r.checkpoint_id ((beforeId opts).getD ""))
  else db.checkpoints.filter (fun r => decide (r.thread_id = t ∧ r.checkpoint_ns = ns))

/-- The matching rows in ORDER BY checkpoint_id DESC order. -/
def listSorted (db : DB) (t ns : String) (opts : CheckpointListOptions) : List CkptRow :=
  List.insertionSort ckptGe (listFiltered db t ns opts)

/-- The LIMIT clause of list: added only when limit is truthy, so a limit of
0 caps nothing. -/
def listLimited (db : DB) (t ns : String) (opts : CheckpointListOptions) : List CkptRow :=
  match opts.limit with
  | some n => if n ≠ 0 then (listSorted db t ns opts).take n else listSorted db t ns opts
  | none => listSorted db t ns opts

/-- list (lines 260-343) as the finite sequence the generator yields. -/
def list (serde : Serde) (cfg : RunnableConfig) (opts : CheckpointListOptions)
    (db : DB) : List CheckpointTuple :=
  match (cfg.configurable.getD noConfigurable).thread_id with
  | none => []
  | some t =>
    (listLimited db t ((cfg.configurable.getD noConfigurable).checkpoint_ns.getD "") opts).map
      (fun r => rowTuple serde db (rowConfig r) r)

instance {e a : Type} [DecidableEq e] [DecidableEq a] : DecidableEq (Except e a) := fun x y =>
  match x, y with
  | .error u, .error v =>
    match decEq u v with
    | isTrue h => isTrue (h ▸ rfl)
    | isFalse h => isFalse (fun hh => h (Except.error.inj hh))
  | .error _, .ok _ => isFalse (fun h => Except.noConfusion h)
  | .ok _, .error _ => isFalse (fun h => Except.noConfusion h)
  | .ok u, .ok v =>
    match decEq u v with
    | isTrue h => isTrue (h ▸ rfl)
    | isFalse h => isFalse (fun hh => h (Except.ok.inj hh))

/-- put (lines 345-400) over the table state. The pair carries the table
state together with the outcome; every throw of the source happens before
the INSERT, so the state component is the unchanged input on every error. -/
def put (serde : Serde) (cfg : RunnableConfig) (ckpt : Checkpoint) (meta : Metadata)
    (db : DB) : DB × Except SaverError RunnableConfig :=
  match cfg.configurable with
  | none => (db, .error .emptyConfig)
  | some c =>
    if truthy c.thread_id = false then (db, .error .missingThreadId) else
    let t := c.thread_id.getD ""
    let ns := c.checkpoint_ns.getD ""
    let d1 := serde.dumpsCkpt ckpt
    let d2 := serde.dumpsMeta meta
    if d1.1 ≠ d2.1 then (db, .error .serializationMismatch) else
    (upsertCkpt db ⟨t, ns, ckpt.id, c.checkpoint_id, d1.1, d1.2, d2.2⟩,
      .ok ⟨some ⟨some t, some ns, some ckpt.id⟩⟩)

/-- The write row putWrites builds for batch position i (lines 421-438). -/
def mkWriteRow (serde : Serde) (t ns cid taskId : String) (i : Nat)
    (w : String × Value) : WriteRow :=
  ⟨t, ns, cid, taskId, i, w.1, (serde.dumpsVal w.2).1, (serde.dumpsVal w.2).2⟩

/-- putWrites (lines 402-440) over the table state: guards first, then one
INSERT OR REPLACE per batch element, keyed by the batch position. On an
error the state component is the unchanged input (the throws precede every
INSERT). -/
def putWrites (serde : Serde) (cfg : RunnableConfig) (writes : List (String × Value))
    (taskId : String) (db : DB) : DB × Option SaverError :=
  match cfg.configurable with
  | none => (db, some .emptyConfig)
  | some c =>
    if truthy c.thread_id = false then (db, some .missingThreadId) else
    if truthy c.checkpoint_id = false then (db, some .missingCheckpointId) else
    let t := c.thread_id.getD ""
    let ns := c.checkpoint_ns.getD ""
    let cid := c.checkpoint_id.getD ""
    (writes.enum.foldl (fun acc p => upsertWrite acc (mkWriteRow serde t ns cid taskId p.1 p.2))
      db, none)

/-- deleteThread (lines 442-450): DELETE FROM both tables by thread_id. -/
def deleteThread (db : DB) (threadId : String) : DB :=
  { checkpoints := db.checkpoints.filter (fun r => decide (r.thread_id ≠ threadId)),
    writes := db.writes.filter (fun r => decide (r.thread_id ≠ threadId)) }

/-! The lifecycle state: initialization, the size guard, and the debounced
persistence scheduler (source lines 37-169). -/

/-- The backing file with its size and the engine image it decodes to: the
export and import routines of the engine are treated as a faithful pair. -/
structure BackingFile where
  size : Nat
  image : DB
deriving DecidableEq

/-- The file-system locations the saver touches: the backing path and the
timestamped backup path oversize recovery renames to. -/
structure FS where
  main : Option BackingFile
  backup : Option BackingFile
deriving DecidableEq

/-- The mutable fields of the saver object (lines 37-41): the engine handle,
the setup flag, the dirty flag and the debounce timer. -/
structure Saver where
  db : Option DB
  isSetup : Bool
  dirty : Bool
  timerArmed : Bool
deriving DecidableEq

/-- The size ceiling of the size guard (line 60): 100MB. -/
def MAX_DB_SIZE : Nat := 100 * 1024 * 1024

/-- saveToDisk (lines 137-154): marks the store dirty and (re)arms the
single-shot debounce timer. -/
def saveToDisk (s : Saver) : Saver :=
  if s.db.isNone then s else { s with dirty := true, timerArmed := true }

/-- setup (lines 99-135): CREATE TABLE IF NOT EXISTS is the identity on the
model state (both tables always exist in a DB value); the method then marks
setup done and calls saveToDisk. -/
def dbSetup (s : Saver) : Saver :=
  if s.isSetup || s.db.isNone then s else saveToDisk { s with isSetup := true }

/-- initialize (lines 52-97). Returns immediately when the engine handle is
already set. Otherwise: no backing file means a fresh empty engine; a file
over the ceiling is never read — it is renamed to the backup path, or
deleted when the rename throws, or left in place when both throw — and a
fresh empty engine is created; a file at or under the ceiling is loaded as
the engine image. renameFails and unlinkFails model whether renameSync and
unlinkSync throw. -/
def initSaver (s : Saver) (fs : FS) (renameFails unlinkFails : Bool) : Saver × FS :=
  if s.db.isSome then (s, fs) else
  match fs.main with
  | some f =>
    if f.size > MAX_DB_SIZE then
      let fs1 : FS :=
        if renameFails = false then { main := none, backup := some f }
        else if unlinkFails = false then { main := none, backup := fs.backup }
        else fs
      (dbSetup { s with db := some DB.empty }, fs1)
    else (dbSetup { s with db := some f.image }, fs)
  | none => (dbSetup { s with db := some DB.empty }, fs)

/-- getTuple as the public method: it awaits initialization first (line 172)
and then only queries the engine. The not-initialized throw at line 173 is
unreachable because initialize always sets the engine handle. -/
def getTupleS (serde : Serde) (cfg : RunnableConfig) (s : Saver) (fs : FS)
    (renameFails unlinkFails : Bool) : (Saver × FS) × Option CheckpointTuple :=
  let p := initSaver s fs renameFails unlinkFails
  (p, getTuple serde cfg (p.1.db.getD DB.empty))

/-- list as the public method, however far the generator is consumed: it
awaits initialization first (line 265) and then only queries the engine. -/
def listS (serde : Serde) (cfg : RunnableConfig) (opts : CheckpointListOptions)
    (s : Saver) (fs : FS) (renameFails unlinkFails : Bool) :
    (Saver × FS) × List CheckpointTuple :=
  let p := initSaver s fs renameFails unlinkFails
  (p, list serde cfg opts (p.1.db.getD DB.empty))

/-! Shared facts about the embedded operations. -/

/-- Key uniqueness of the checkpoints table: what the PRIMARY KEY constraint
of the schema guarantees; every reachable table state satisfies it. -/
abbrev CkptKeysNodup (db : DB) : Prop := (db.checkpoints.map ckptKey).Nodup

/-- Key uniqueness of the writes table. -/
abbrev WriteKeysNodup (db : DB) : Prop := (db.writes.map writeKey).Nodup

theorem sorted_perm_eq {α : Type} {lt : α → α → Prop}
    (hasym : ∀ a b, lt a b → ¬ lt b a) {l1 l2 : List α}
    (hp : l1.Perm l2) (h1 : l1.Sorted lt) (h2 : l2.Sorted lt) : l1 = l2 := by
  haveI : IsAntisymm α lt := ⟨fun a b hab hba => (hasym a b hab hba).elim⟩
  exact List.eq_of_perm_of_sorted hp h1 h2

theorem wLt_asymm (a b : WriteRow) (h : wLt a b) : ¬ wLt b a := by
  intro h2
  unfold wLt at h h2
  rcases h with h | ⟨he, hi⟩
  · rcases h2 with h2 | ⟨h2e, _⟩
    · rw [strLt_asymm h] at h2
      exact Bool.noConfusion h2
    · rw [h2e] at h
      rw [strLt_irrefl] at h
      exact Bool.noConfusion h
  · rcases h2 with h2 | ⟨_, h2i⟩
    · rw [he] at h2
      rw [strLt_irrefl] at h2
      exact Bool.noConfusion h2
    · omega

theorem ckptGt_asymm (a b : CkptRow) (h : ckptGt a b) : ¬ ckptGt b a := by
  intro h2
  unfold ckptGt at h h2
  rw [strLt_asymm h2] at h
  exact Bool.noConfusion h

theorem pairwise_wLe_to_wLt {l : List WriteRow}
    (hs : l.Pairwise wLe) (hn : (l.map (fun w => (w.task_id, w.idx))).Nodup) :
    l.Pairwise wLt := by
  have hne : l.Pairwise (fun a b => (a.task_id, a.idx) ≠ (b.task_id, b.idx)) :=
    List.pairwise_map.mp hn
  refine (hs.and hne).imp ?_
  rintro a b ⟨hle, hne2⟩
  unfold wLe at hle
  unfold wLt
  rcases hle with h | ⟨he, hi⟩
  · exact Or.inl h
  · refine Or.inr ⟨he, ?_⟩
    rcases Nat.lt_or_ge a.idx b.idx with h | h
    · exact h
    · have hii : a.idx = b.idx := Nat.le_antisymm hi h
      exact absurd (by rw [he, hii]) hne2

theorem pairwise_ckptGe_to_ckptGt {l : List CkptRow}
    (hs : l.Pairwise ckptGe) (hn : (l.map CkptRow.checkpoint_id).Nodup) :
    l.Pairwise ckptGt := by
  have hne : l.Pairwise (fun a b => a.checkpoint_id ≠ b.checkpoint_id) :=
    List.pairwise_map.mp hn
  refine (hs.and hne).imp ?_
  rintro a b ⟨hge, hne2⟩
  unfold ckptGe at hge
  unfold ckptGt
  cases hba : strLt b.checkpoint_id a.checkpoint_id with
  | true => rfl
  | false => exact absurd (strLt_connex hge hba) hne2

/-- The filter predicate of the pending-writes SELECT. -/
def wMatch (t ns cid : String) (r : WriteRow) : Bool :=
  decide (r.thread_id = t ∧ r.checkpoint_ns = ns ∧ r.checkpoint_id = cid)

theorem selectWrites_eq (db : DB) (t ns cid : String) :
    selectWrites db t ns cid = List.insertionSort wLe (db.writes.filter (wMatch t ns cid)) := rfl

theorem selectWrites_perm (db : DB) (t ns cid : String) :
    (selectWrites db t ns cid).Perm (db.writes.filter (wMatch t ns cid)) :=
  List.perm_insertionSort _ _

theorem selectWrites_sorted (db : DB) (t ns cid : String) :
    (selectWrites db t ns cid).Sorted wLe :=
  List.sorted_insertionSort _ _

/-- The filter predicate of the checkpoint SELECT by thread and namespace. -/
def cMatch (t ns : String) (r : CkptRow) : Bool :=
  decide (r.thread_id = t ∧ r.checkpoint_ns = ns)

theorem selectCkpts_eq (db : DB) (t ns : String) :
    selectCkpts db t ns = List.insertionSort ckptGe (db.checkpoints.filter (cMatch t ns)) := rfl

theorem selectCkpts_perm (db : DB) (t ns : String) :
    (selectCkpts db t ns).Perm (db.checkpoints.filter (cMatch t ns)) :=
  List.perm_insertionSort _ _

theorem selectCkpts_sorted (db : DB) (t ns : String) :
    (selectCkpts db t ns).Sorted ckptGe :=
  List.sorted_insertionSort _ _

/-- Within one (thread_id, checkpoint_ns, checkpoint_id) slice of a writes
table with unique keys, the (task_id, idx) pairs are distinct. -/
theorem write_sortkeys_nodup (db : DB) (t ns cid : String) (h : WriteKeysNodup db) :
    ((db.writes.filter (wMatch t ns cid)).map (fun w => (w.task_id, w.idx))).Nodup := by
  have hsub : ((db.writes.filter (wMatch t ns cid)).map writeKey).Sublist
      (db.writes.map writeKey) := List.Sublist.map _ (List.filter_sublist _)
  have hkeys : ((db.writes.filter (wMatch t ns cid)).map writeKey).Nodup :=
    hsub.nodup h
  have helems : (db.writes.filter (wMatch t ns cid)).Nodup := List.Nodup.of_map _ hkeys
  refine List.Nodup.map_on ?_ helems
  intro x hx y hy hxy
  have hxm := (List.mem_filter.mp hx).2
  have hym := (List.mem_filter.mp hy).2
  unfold wMatch at hxm hym
  have hx3 := of_decide_eq_true hxm
  have hy3 := of_decide_eq_true hym
  apply List.inj_on_of_nodup_map hkeys hx hy
  unfold writeKey
  rw [hx3.1, hx3.2.1, hx3.2.2, hy3.1, hy3.2.1, hy3.2.2]
  rw [Prod.mk.injEq] at hxy
  rw [hxy.1, hxy.2]

/-- Within one (thread_id, checkpoint_ns) slice of a checkpoints table with
unique keys, the checkpoint ids are distinct. -/
theorem ckpt_ids_nodup (db : DB) (t ns : String) (h : CkptKeysNodup db) :
    ((db.checkpoints.filter (cMatch t ns)).map CkptRow.checkpoint_id).Nodup := by
  have hsub : ((db.checkpoints.filter (cMatch t ns)).map ckptKey).Sublist
      (db.checkpoints.map ckptKey) := List.Sublist.map _ (List.filter_sublist _)
  have hkeys : ((db.checkpoints.filter (cMatch t ns)).map ckptKey).Nodup := hsub.nodup h
  have helems : (db.checkpoints.filter (cMatch t ns)).Nodup := List.Nodup.of_map _ hkeys
  refine List.Nodup.map_on ?_ helems
  intro x hx y hy hxy
  have hxm := of_decide_eq_true (List.mem_filter.mp hx).2
  have hym := of_decide_eq_true (List.mem_filter.mp hy).2
  apply List.inj_on_of_nodup_map hkeys hx hy
  unfold ckptKey
  rw [hxm.1, hxm.2, hym.1, hym.2, hxy]

/-! Concrete objects used by witnesses and counterexamples. -/

/-- A concrete adapter that stores the checkpoint id in front of the body,
separated by a colon, so that decoding inverts encoding on colon-free ids. -/
def serde0 : Serde :=
  { dumpsCkpt := fun c => ("json", ⟨c.id.data ++ ':' :: c.body.data⟩)
    loadsCkpt := fun _ s => ⟨⟨s.data.takeWhile (fun ch => ch ≠ ':')⟩,
      ⟨(s.data.dropWhile (fun ch => ch ≠ ':')).drop 1⟩⟩
    dumpsMeta := fun m => ("json", m)
    loadsMeta := fun _ s => s
    dumpsVal := fun v => ("json", v)
    loadsVal := fun _ s => s }

/-- An adapter whose two dump routines disagree on the type tag. -/
def serdeMismatch : Serde := { serde0 with dumpsMeta := fun m => ("msgpack", m) }

/-! Claim C8: thread isolation of deleteThread. -/

/-- C8: after deleteThread(T1), no checkpoint row and no write row with
thread_id = T1 remains (across all namespaces), and for every other thread
id both tables hold exactly the rows they held before, in the same order. -/
theorem C8_deleteThread_isolation (db : DB) (t1 t2 : String) :
    (∀ r ∈ (deleteThread db t1).checkpoints, r.thread_id ≠ t1) ∧
    (∀ w ∈ (deleteThread db t1).writes, w.thread_id ≠ t1) ∧
    (t2 ≠ t1 →
      (deleteThread db t1).checkpoints.filter (fun r => decide (r.thread_id = t2)) =
        db.checkpoints.filter (fun r => decide (r.thread_id = t2)) ∧
      (deleteThread db t1).writes.filter (fun w => decide (w.thread_id = t2)) =
        db.writes.filter (fun w => decide (w.thread_id = t2))) := by
  refine ⟨?_, ?_, ?_⟩
  · intro r hr
    exact of_decide_eq_true (List.mem_filter.mp hr).2
  · intro w hw
    exact of_decide_eq_true (List.mem_filter.mp hw).2
  · intro hne
    constructor
    · show List.filter _ (List.filter _ db.checkpoints) = _
      rw [List.filter_filter]
      apply List.filter_congr
      intro x _
      by_cases h : x.thread_id = t2
      · have : x.thread_id ≠ t1 := by rw [h]; exact hne
        simp [h, this, hne]
      · simp [h]
    · show List.filter _ (List.filter _ db.writes) = _
      rw [List.filter_filter]
      apply List.filter_congr
      intro x _
      by_cases h : x.thread_id = t2
      · have : x.thread_id ≠ t1 := by rw [h]; exact hne
        simp [h, this, hne]
      · simp [h]

/-! Claim C6: the serialization-mismatch guard of put. -/

/-- C6: when the adapter produces different type tags for the checkpoint and
for the metadata, put fails with the serialization mismatch error and
returns the tables unchanged (the throw happens before the INSERT); when the
tags agree, that error is unreachable whatever the rest of the call is. -/
theorem C6_put_serialization_mismatch (serde : Serde) (cfg : RunnableConfig)
    (ckpt : Checkpoint) (meta : Metadata) (db : DB) :
    (((serde.dumpsCkpt ckpt).1 ≠ (serde.dumpsMeta meta).1 ∧ cfg.configurable.isSome = true ∧
        truthy ((cfg.configurable.getD noConfigurable).thread_id) = true) →
      put serde cfg ckpt meta db = (db, .error .serializationMismatch)) ∧
    ((serde.dumpsCkpt ckpt).1 = (serde.dumpsMeta meta).1 →
      (put serde cfg ckpt meta db).2 ≠ Except.error SaverError.serializationMismatch) := by
  obtain ⟨conf⟩ := cfg
  constructor
  · rintro ⟨hne, hsome, htru⟩
    cases conf with
    | none => exact absurd hsome (by simp)
    | some c =>
      simp only [Option.getD] at htru
      show put serde ⟨some c⟩ ckpt meta db = _
      unfold put
      simp only [htru]
      simp [hne]
  · intro heq
    cases conf with
    | none =>
      show (put serde ⟨none⟩ ckpt meta db).2 ≠ _
      unfold put
      simp
    | some c =>
      show (put serde ⟨some c⟩ ckpt meta db).2 ≠ _
      unfold put
      cases htru : truthy c.thread_id with
      | false => simp [htru]
      | true =>
        simp only [htru]
        simp [heq]

/-- C6 witness: a concrete mismatching call fails with the mismatch error
and leaves the store untouched, and a concrete matching call does not raise
that error. -/
theorem C6_witness :
    put serdeMismatch ⟨some ⟨some "t", none, none⟩⟩ ⟨"c1", "x"⟩ "m" DB.empty =
      (DB.empty, .error .serializationMismatch) ∧
    (put serde0 ⟨some ⟨some "t", none, none⟩⟩ ⟨"c1", "x"⟩ "m" DB.empty).2 ≠
      Except.error SaverError.serializationMismatch :=
  ⟨(C6_put_serialization_mismatch serdeMismatch ⟨some ⟨some "t", none, none⟩⟩
      ⟨"c1", "x"⟩ "m" DB.empty).1 (by decide),
   (C6_put_serialization_mismatch serde0 ⟨some ⟨some "t", none, none⟩⟩
      ⟨"c1", "x"⟩ "m" DB.empty).2 (by decide)⟩

/-! Claim C7: the putWrites guards and its upsert effect. -/

/-- The rows one successful putWrites call builds, one per batch element,
keyed by the position of the element in the batch. -/
def batchRows (serde : Serde) (t ns cid taskId : String)
    (writes : List (String × Value)) : List WriteRow :=
  writes.enum.map (fun p => mkWriteRow serde t ns cid taskId p.1 p.2)

theorem batchRows_keys (serde : Serde) (t ns cid taskId : String)
    (writes : List (String × Value)) :
    (batchRows serde t ns cid taskId writes).map writeKey =
      (List.range writes.length).map (fun i => (t, ns, cid, taskId, i)) := by
  unfold batchRows
  rw [List.map_map]
  have : (writeKey ∘ fun p => mkWriteRow serde t ns cid taskId p.1 p.2) =
      (fun i => (t, ns, cid, taskId, i)) ∘ Prod.fst := by
    funext p
    rfl
  rw [this, ← List.map_map, List.enum_map_fst]

theorem batchRows_keys_nodup (serde : Serde) (t ns cid taskId : String)
    (writes : List (String × Value)) :
    ((batchRows serde t ns cid taskId writes).map writeKey).Nodup := by
  rw [batchRows_keys]
  apply List.Nodup.map
  · intro i j h
    exact congrArg (fun p => p.2.2.2.2) h
  · exact List.nodup_range _

theorem foldl_upsertWrite_checkpoints (rows : List WriteRow) (db : DB) :
    (rows.foldl upsertWrite db).checkpoints = db.checkpoints := by
  induction rows generalizing db with
  | nil => rfl
  | cons r rest ih =>
    rw [List.foldl_cons, ih]
    rfl

theorem foldl_upsertWrite_writes (rows : List WriteRow) (db : DB)
    (hk : (rows.map writeKey).Nodup) :
    (rows.foldl upsertWrite db).writes =
      db.writes.filter (fun w => decide (writeKey w ∉ rows.map writeKey)) ++ rows := by
  induction rows generalizing db with
  | nil =>
    simp
  | cons r rest ih =>
    simp only [List.map_cons] at hk
    have hr : writeKey r ∉ rest.map writeKey := (List.nodup_cons.mp hk).1
    have hrest : (rest.map writeKey).Nodup := (List.nodup_cons.mp hk).2
    rw [List.foldl_cons, ih _ hrest]
    show (db.writes.filter (fun q => decide (writeKey q ≠ writeKey r)) ++ [r]).filter _ ++ rest = _
    rw [List.filter_append, List.filter_filter]
    have hsingle : [r].filter (fun w => decide (writeKey w ∉ rest.map writeKey)) = [r] := by
      have hd : decide (writeKey r ∉ rest.map writeKey) = true := decide_eq_true hr
      rw [List.filter_cons, if_pos hd]
      rfl
    rw [hsingle]
    have hpred : ∀ x ∈ db.writes,
        ((fun w => decide (writeKey w ∉ rest.map writeKey)) x &&
          (fun q => decide (writeKey q ≠ writeKey r)) x) =
        decide (writeKey x ∉ List.map writeKey (r :: rest)) := by
      intro x _
      simp only [List.map_cons, List.mem_cons]
      by_cases h1 : writeKey x = writeKey r
      · simp [h1]
      · by_cases h2 : writeKey x ∈ rest.map writeKey
        · simp [h1, h2]
        · simp [h1, h2]
    rw [List.filter_congr hpred]
    simp only [List.map_cons]
    rw [List.append_assoc]
    rfl

/-- Folding the per-element upsert of putWrites over the enumerated batch is
folding the plain upsert over the batch rows. -/
theorem foldl_upsert_enum (serde : Serde) (t ns cid taskId : String)
    (writes : List (String × Value)) (db : DB) :
    List.foldl (fun acc p => upsertWrite acc (mkWriteRow serde t ns cid taskId p.1 p.2))
      db writes.enum =
    List.foldl upsertWrite db (batchRows serde t ns cid taskId writes) := by
  unfold batchRows
  rw [List.foldl_map]

/-- C7 counterexample: a call whose config carries both fields — thread_id
present but equal to the empty string — still fails with the configuration
error, so "fails if and only if a field is missing" is false as stated. -/
theorem C7_counterexample :
    ((putWrites serde0 ⟨some ⟨some "", none, some "c"⟩⟩ [("ch", "v")] "task" DB.empty).2 =
      some SaverError.missingThreadId) ∧
    (some "" : Option String) ≠ none ∧ (some "c" : Option String) ≠ none := by decide

/-- C7 amended: putWrites fails with a configuration error if and only if
the thread_id or the checkpoint_id of the ref is missing or empty (JS
truthiness); on failure both tables are unchanged; on success it leaves the
checkpoints table unchanged and upserts exactly one row per batch element,
keyed by (thread_id, namespace, checkpoint_id, task_id, batch position). -/
theorem C7_putWrites_guards (serde : Serde) (cfg : RunnableConfig)
    (writes : List (String × Value)) (taskId : String) (db : DB) :
    ((putWrites serde cfg writes taskId db).2 ≠ none ↔
      (truthy ((cfg.configurable.getD noConfigurable).thread_id) = false ∨
        truthy ((cfg.configurable.getD noConfigurable).checkpoint_id) = false)) ∧
    ((putWrites serde cfg writes taskId db).2 ≠ none →
      (putWrites serde cfg writes taskId db).1 = db) ∧
    ((putWrites serde cfg writes taskId db).2 = none →
      (putWrites serde cfg writes taskId db).1.checkpoints = db.checkpoints ∧
      (putWrites serde cfg writes taskId db).1.writes =
        db.writes.filter (fun w => decide (writeKey w ∉
          (batchRows serde ((cfg.configurable.getD noConfigurable).thread_id.getD "")
            ((cfg.configurable.getD noConfigurable).checkpoint_ns.getD "")
            ((cfg.configurable.getD noConfigurable).checkpoint_id.getD "")
            taskId writes).map writeKey)) ++
        batchRows serde ((cfg.configurable.getD noConfigurable).thread_id.getD "")
          ((cfg.configurable.getD noConfigurable).checkpoint_ns.getD "")
          ((cfg.configurable.getD noConfigurable).checkpoint_id.getD "")
          taskId writes) := by
  obtain ⟨conf⟩ := cfg
  cases conf with
  | none =>
    refine ⟨by simp [putWrites, noConfigurable, truthy], fun _ => rfl, ?_⟩
    intro h
    exact absurd h (by simp [putWrites])
  | some c =>
    simp only [Option.getD_some]
    unfold putWrites
    dsimp only
    cases ht : truthy c.thread_id with
    | false => simp [ht]
    | true =>
      cases hcid : truthy c.checkpoint_id with
      | false => simp [ht, hcid]
      | true =>
        refine ⟨?_, ?_, ?_⟩
        · rw [if_neg (by simp [ht]), if_neg (by simp [hcid])]
          simp [ht, hcid]
        · rw [if_neg (by simp [ht]), if_neg (by simp [hcid])]
          intro h
          exact absurd rfl h
        · rw [if_neg (by simp [ht]), if_neg (by simp [hcid])]
          intro _
          constructor
          · rw [foldl_upsert_enum]
            exact foldl_upsertWrite_checkpoints _ _
          · rw [foldl_upsert_enum]
            exact foldl_upsertWrite_writes _ _ (batchRows_keys_nodup serde _ _ _ _ _)

/-! Claim C2: pending-write resolution and ordering. -/

/-- The (thread_id, checkpoint_ns, checkpoint_id) triple a write row refers to. -/
def wCkptKey (w : WriteRow) : String × String × String :=
  (w.thread_id, w.checkpoint_ns, w.checkpoint_id)

/-- The key triple a config resolves to (absent fields read as empty). -/
def cfgKey (cfg : RunnableConfig) : String × String × String :=
  ((cfg.configurable.getD noConfigurable).thread_id.getD "",
    (cfg.configurable.getD noConfigurable).checkpoint_ns.getD "",
    (cfg.configurable.getD noConfigurable).checkpoint_id.getD "")

theorem wMatch_eq_key (t ns cid : String) (w : WriteRow) :
    wMatch t ns cid w = decide (wCkptKey w = (t, ns, cid)) := by
  unfold wMatch wCkptKey
  rw [decide_eq_decide]
  constructor
  · rintro ⟨h1, h2, h3⟩
    rw [h1, h2, h3]
  · intro h
    exact ⟨congrArg (fun p => p.1) h, congrArg (fun p => p.2.1) h, congrArg (fun p => p.2.2) h⟩

theorem filter_wMatch_eq (db : DB) (t ns cid : String) :
    db.writes.filter (wMatch t ns cid) =
      db.writes.filter (fun w => decide (wCkptKey w = (t, ns, cid))) :=
  List.filter_congr (fun w _ => wMatch_eq_key t ns cid w)

/-- The sort keys of the resolved pending-write rows are distinct when the
writes table has unique keys. -/
theorem selectWrites_sortkeys_nodup (db : DB) (t ns cid : String) (hn : WriteKeysNodup db) :
    ((selectWrites db t ns cid).map (fun w => (w.task_id, w.idx))).Nodup := by
  have hperm := (selectWrites_perm db t ns cid).map (fun w => (w.task_id, w.idx))
  exact hperm.nodup_iff.mpr (write_sortkeys_nodup db t ns cid hn)

/-- The resolved pending-write rows are strictly sorted when the table keys
are unique. -/
theorem selectWrites_strict_sorted (db : DB) (t ns cid : String) (hn : WriteKeysNodup db) :
    (selectWrites db t ns cid).Pairwise wLt :=
  pairwise_wLe_to_wLt (selectWrites_sorted db t ns cid)
    (selectWrites_sortkeys_nodup db t ns cid hn)

/-- Permuting the stored writes does not change the resolved row list. -/
theorem selectWrites_perm_congr (db db2 : DB) (t ns cid : String)
    (hn : WriteKeysNodup db) (hw : db2.writes.Perm db.writes) :
    selectWrites db2 t ns cid = selectWrites db t ns cid := by
  have hn2 : WriteKeysNodup db2 := (hw.map writeKey).nodup_iff.mpr hn
  apply sorted_perm_eq wLt_asymm
  · exact (selectWrites_perm db2 t ns cid).trans
      ((hw.filter (wMatch t ns cid)).trans (selectWrites_perm db t ns cid).symm)
  · exact selectWrites_strict_sorted db2 t ns cid hn2
  · exact selectWrites_strict_sorted db t ns cid hn

/-- getTuple reads the checkpoints table and the resolved pending writes
only, so equal checkpoints and equal resolved writes give equal results. -/
theorem getTuple_congr (serde : Serde) (cfg : RunnableConfig) (db db2 : DB)
    (hck : db2.checkpoints = db.checkpoints)
    (hsw : ∀ t ns cid, selectWrites db2 t ns cid = selectWrites db t ns cid) :
    getTuple serde cfg db2 = getTuple serde cfg db := by
  have hrt : ∀ cf r, rowTuple serde db2 cf r = rowTuple serde db cf r := by
    intro cf r
    unfold rowTuple
    rw [hsw]
  have hsc : ∀ t ns, selectCkpts db2 t ns = selectCkpts db t ns := by
    intro t ns
    rw [selectCkpts_eq, selectCkpts_eq, hck]
  unfold getTuple
  rw [hck]
  simp only [hrt, hsc]

/-- Any tuple getTuple returns comes from a stored row: the row is in the
checkpoints table, the config of the tuple resolves to the key of the row,
and the attached pending writes are the decoded resolved rows of that key. -/
theorem getTuple_row (serde : Serde) (cfg : RunnableConfig) (db : DB) (tup : CheckpointTuple)
    (h : getTuple serde cfg db = some tup) :
    ∃ r : CkptRow, r ∈ db.checkpoints ∧
      cfgKey tup.config = (r.thread_id, r.checkpoint_ns, r.checkpoint_id) ∧
      tup.pendingWrites =
        (selectWrites db r.thread_id r.checkpoint_ns r.checkpoint_id).map (decodeWrite serde) := by
  unfold getTuple at h
  split at h
  · exact absurd h (by simp)
  next t hth =>
    split at h
    next htr =>
      split at h
      · exact absurd h (by simp)
      next row hrow =>
        have hmem := List.mem_filter.mp (List.mem_of_mem_head? hrow)
        have hrk := of_decide_eq_true hmem.2
        refine ⟨row, hmem.1, ?_, ?_⟩
        · have htup : tup = rowTuple serde db cfg row := (Option.some.inj h).symm
          rw [htup]
          show cfgKey cfg = _
          unfold cfgKey
          rw [hth, hrk.1, hrk.2.1, hrk.2.2]
          rfl
        · have htup : tup = rowTuple serde db cfg row := (Option.some.inj h).symm
          rw [htup]
          rfl
    next htr =>
      split at h
      · exact absurd h (by simp)
      next row hrow =>
        have hsel := List.mem_of_mem_head? hrow
        have hmem := List.mem_filter.mp ((selectCkpts_perm db t _).mem_iff.mp hsel)
        have hrk := of_decide_eq_true hmem.2
        refine ⟨row, hmem.1, ?_, ?_⟩
        · have htup : tup = rowTuple serde db (rowConfig row) row := (Option.some.inj h).symm
          rw [htup]
          rfl
        · have htup : tup = rowTuple serde db (rowConfig row) row := (Option.some.inj h).symm
          rw [htup]
          rfl

/-- C2: any tuple returned by getTuple, and every element produced by list,
carries exactly the pending writes stored for the returned checkpoint — a
permutation of the matching writes rows — arranged in their stored
(task_id, idx) order; and the result is the same whatever the insertion
order of the writes table was (any permutation of the stored rows yields
the identical tuple). -/
theorem C2_pending_writes_sorted (serde : Serde) (cfg : RunnableConfig)
    (opts : CheckpointListOptions) (db db2 : DB) (tup tup2 : CheckpointTuple)
    (hn : WriteKeysNodup db)
    (h : getTuple serde cfg db = some tup)
    (hck : db2.checkpoints = db.checkpoints)
    (hw : db2.writes.Perm db.writes)
    (h2 : getTuple serde cfg db2 = some tup2) :
    (∃ ws : List WriteRow,
      ws.Perm (db.writes.filter (fun w => decide (wCkptKey w = cfgKey tup.config))) ∧
      ws.Pairwise wLe ∧ tup.pendingWrites = ws.map (decodeWrite serde)) ∧
    tup2 = tup ∧
    (∀ tupL ∈ list serde cfg opts db,
      ∃ ws : List WriteRow,
        ws.Perm (db.writes.filter (fun w => decide (wCkptKey w = cfgKey tupL.config))) ∧
        ws.Pairwise wLe ∧ tupL.pendingWrites = ws.map (decodeWrite serde)) := by
  obtain ⟨r, hrmem, hkey, hpw⟩ := getTuple_row serde cfg db tup h
  refine ⟨⟨selectWrites db r.thread_id r.checkpoint_ns r.checkpoint_id, ?_, ?_, hpw⟩, ?_, ?_⟩
  · rw [hkey, ← filter_wMatch_eq]
    exact selectWrites_perm db _ _ _
  · exact selectWrites_sorted db _ _ _
  · have hcon := getTuple_congr serde cfg db db2 hck
      (fun t ns cid => selectWrites_perm_congr db db2 t ns cid hn hw)
    rw [hcon] at h2
    exact Option.some.inj (h2.symm.trans h)
  · intro tupL hmem
    unfold list at hmem
    split at hmem
    · exact absurd hmem (List.not_mem_nil _)
    next t hth =>
      obtain ⟨r2, hr2, heq⟩ := List.mem_map.mp hmem
      refine ⟨selectWrites db r2.thread_id r2.checkpoint_ns r2.checkpoint_id, ?_, ?_, ?_⟩
      · have hck2 : cfgKey tupL.config = (r2.thread_id, r2.checkpoint_ns, r2.checkpoint_id) := by
          rw [← heq]
          rfl
        rw [hck2, ← filter_wMatch_eq]
        exact selectWrites_perm db _ _ _
      · exact selectWrites_sorted db _ _ _
      · rw [← heq]
        rfl

/-- The store of the C2 witness: one checkpoint with two pending writes
whose rows were inserted in reversed index order. -/
def dbC2 : DB :=
  ⟨[⟨"t", "", "c", none, "json", "c:x", "m"⟩],
    [⟨"t", "", "c", "task", 1, "ch2", "json", "v2"⟩,
      ⟨"t", "", "c", "task", 0, "ch1", "json", "v1"⟩]⟩

/-- The same store with the writes rows in the opposite insertion order. -/
def dbC2b : DB :=
  ⟨[⟨"t", "", "c", none, "json", "c:x", "m"⟩],
    [⟨"t", "", "c", "task", 0, "ch1", "json", "v1"⟩,
      ⟨"t", "", "c", "task", 1, "ch2", "json", "v2"⟩]⟩

def cfgC2 : RunnableConfig := ⟨some ⟨some "t", none, some "c"⟩⟩

def optsC2 : CheckpointListOptions := ⟨none, none⟩

/-- The tuple both stores return: writes attached in (task_id, idx) order. -/
def tupC2 : CheckpointTuple :=
  ⟨cfgC2, ⟨"c", "x"⟩, "m", none, [("task", "ch1", "v1"), ("task", "ch2", "v2")]⟩

/-- C2 witness: the theorem applied to a concrete store holding two writes
inserted out of index order. -/
theorem C2_witness :
    (∃ ws : List WriteRow,
      ws.Perm (dbC2.writes.filter (fun w => decide (wCkptKey w = cfgKey tupC2.config))) ∧
      ws.Pairwise wLe ∧ tupC2.pendingWrites = ws.map (decodeWrite serde0)) ∧
    tupC2 = tupC2 ∧
    (∀ tupL ∈ list serde0 cfgC2 optsC2 dbC2,
      ∃ ws : List WriteRow,
        ws.Perm (dbC2.writes.filter (fun w => decide (wCkptKey w = cfgKey tupL.config))) ∧
        ws.Pairwise wLe ∧ tupL.pendingWrites = ws.map (decodeWrite serde0)) :=
  C2_pending_writes_sorted serde0 cfgC2 optsC2 dbC2 dbC2b tupC2 tupC2
    (by decide) (by decide) (by decide) (by decide) (by decide)

/-! Claim C3: latest-wins resolution of getTuple. -/

/-- Within one (thread_id, checkpoint_ns) slice the sorted rows are strictly
descending when the table keys are unique. -/
theorem selectCkpts_strict_sorted (db : DB) (t ns : String) (hn : CkptKeysNodup db) :
    (selectCkpts db t ns).Pairwise ckptGt := by
  apply pairwise_ckptGe_to_ckptGt (selectCkpts_sorted db t ns)
  have hperm := (selectCkpts_perm db t ns).map CkptRow.checkpoint_id
  exact hperm.nodup_iff.mpr (ckpt_ids_nodup db t ns hn)

/-- Permuting the stored checkpoints does not change the sorted slice. -/
theorem selectCkpts_perm_congr (db db2 : DB) (t ns : String)
    (hn : CkptKeysNodup db) (hp : db2.checkpoints.Perm db.checkpoints) :
    selectCkpts db2 t ns = selectCkpts db t ns := by
  have hn2 : CkptKeysNodup db2 := (hp.map ckptKey).nodup_iff.mpr hn
  apply sorted_perm_eq ckptGt_asymm
  · exact (selectCkpts_perm db2 t ns).trans
      ((hp.filter (cMatch t ns)).trans (selectCkpts_perm db t ns).symm)
  · exact selectCkpts_strict_sorted db2 t ns hn2
  · exact selectCkpts_strict_sorted db t ns hn

/-- selectWrites reads only the writes table. -/
theorem selectWrites_writes_congr (db db2 : DB) (t ns cid : String)
    (hwe : db2.writes = db.writes) :
    selectWrites db2 t ns cid = selectWrites db t ns cid := by
  rw [selectWrites_eq, selectWrites_eq, hwe]

/-- A latest-mode getTuple is unchanged by any reordering of the checkpoints
table (with unique keys) when the writes table is unchanged. -/
theorem getTuple_latest_congr (serde : Serde) (t ns : String) (db db2 : DB)
    (hn : CkptKeysNodup db) (hp : db2.checkpoints.Perm db.checkpoints)
    (hwe : db2.writes = db.writes) :
    getTuple serde ⟨some ⟨some t, some ns, none⟩⟩ db2 =
      getTuple serde ⟨some ⟨some t, some ns, none⟩⟩ db := by
  have hsel := selectCkpts_perm_congr db db2 t ns hn hp
  have hrt : ∀ cf r, rowTuple serde db2 cf r = rowTuple serde db cf r := by
    intro cf r
    unfold rowTuple
    rw [selectWrites_writes_congr db db2 _ _ _ hwe]
  unfold getTuple
  dsimp only [Option.getD]
  rw [if_neg (show ¬ truthy (none : Option String) = true by decide),
    if_neg (show ¬ truthy (none : Option String) = true by decide)]
  rw [hsel]
  simp only [hrt]

/-- With a nonempty checkpoint_id the lookup is the exact-key SELECT: the
head of the rows holding exactly that key, decorated as a tuple. -/
theorem getTuple_exact (serde : Serde) (db : DB) (t ns cid : String) (hcid : cid ≠ "") :
    getTuple serde ⟨some ⟨some t, some ns, some cid⟩⟩ db =
      ((db.checkpoints.filter (fun r =>
          decide (r.thread_id = t ∧ r.checkpoint_ns = ns ∧ r.checkpoint_id = cid))).head?).map
        (fun row => rowTuple serde db ⟨some ⟨some t, some ns, some cid⟩⟩ row) := by
  unfold getTuple
  have htr : truthy (some cid) = true := by simp [truthy, hcid]
  dsimp only [Option.getD]
  rw [if_pos htr]
  cases hh : (db.checkpoints.filter (fun r =>
      decide (r.thread_id = t ∧ r.checkpoint_ns = ns ∧ r.checkpoint_id = cid))).head? with
  | none => rfl
  | some row => rfl

/-- C3 counterexample: with checkpoint_id present but empty the saver does
not perform an exact-key lookup — the row with key ("t", "", "") exists, yet
getTuple resolves the latest row "a" instead (the empty string is falsy). -/
def dbC3 : DB :=
  ⟨[⟨"t", "", "", none, "json", ":e", "me"⟩, ⟨"t", "", "a", none, "json", "a:pa", "ma"⟩], []⟩

theorem C3_counterexample :
    (∃ r ∈ dbC3.checkpoints, ckptKey r = ("t", "", "")) ∧
    (getTuple serde0 ⟨some ⟨some "t", some "", some ""⟩⟩ dbC3).map
      (fun tup => cfgKey tup.config) = some ("t", "", "a") := by decide

/-- C3 amended: for every (thread_id, namespace) holding at least one
checkpoint, getTuple with no checkpoint_id returns the row whose
checkpoint_id is maximal for that slice, whatever the insertion order of the
checkpoints table was; with a nonempty checkpoint_id it performs an
exact-key lookup. -/
theorem C3_latest_wins (serde : Serde) (db : DB) (t ns : String) (r : CkptRow)
    (hn : CkptKeysNodup db) (hr : r ∈ db.checkpoints)
    (ht : r.thread_id = t) (hns : r.checkpoint_ns = ns) :
    (∃ rmax : CkptRow,
      getTuple serde ⟨some ⟨some t, some ns, none⟩⟩ db =
        some (rowTuple serde db (rowConfig rmax) rmax) ∧
      rmax ∈ db.checkpoints ∧ rmax.thread_id = t ∧ rmax.checkpoint_ns = ns ∧
      (∀ q ∈ db.checkpoints, q.thread_id = t → q.checkpoint_ns = ns →
        strLt rmax.checkpoint_id q.checkpoint_id = false)) ∧
    (∀ db2 : DB, db2.checkpoints.Perm db.checkpoints → db2.writes = db.writes →
      getTuple serde ⟨some ⟨some t, some ns, none⟩⟩ db2 =
        getTuple serde ⟨some ⟨some t, some ns, none⟩⟩ db) ∧
    (∀ cid : String, cid ≠ "" →
      getTuple serde ⟨some ⟨some t, some ns, some cid⟩⟩ db =
        ((db.checkpoints.filter (fun q =>
            decide (q.thread_id = t ∧ q.checkpoint_ns = ns ∧ q.checkpoint_id = cid))).head?).map
          (fun row => rowTuple serde db ⟨some ⟨some t, some ns, some cid⟩⟩ row)) := by
  refine ⟨?_, fun db2 hp hwe => getTuple_latest_congr serde t ns db db2 hn hp hwe,
    fun cid hcid => getTuple_exact serde db t ns cid hcid⟩
  have hrf : r ∈ db.checkpoints.filter (cMatch t ns) :=
    List.mem_filter.mpr ⟨hr, decide_eq_true ⟨ht, hns⟩⟩
  have hrs : r ∈ selectCkpts db t ns := (selectCkpts_perm db t ns).mem_iff.mpr hrf
  cases hsel : selectCkpts db t ns with
  | nil =>
    rw [hsel] at hrs
    exact absurd hrs (List.not_mem_nil _)
  | cons rmax rest =>
    have hmaxmem : rmax ∈ selectCkpts db t ns := by
      rw [hsel]
      exact List.mem_cons_self _ _
    have hmaxf := List.mem_filter.mp ((selectCkpts_perm db t ns).mem_iff.mp hmaxmem)
    have hmaxk : rmax.thread_id = t ∧ rmax.checkpoint_ns = ns := of_decide_eq_true hmaxf.2
    refine ⟨rmax, ?_, hmaxf.1, hmaxk.1, hmaxk.2, ?_⟩
    · unfold getTuple
      dsimp only [Option.getD]
      rw [if_neg (show ¬ truthy (none : Option String) = true by decide)]
      rw [hsel]
      rfl
    · intro q hq hqt hqns
      have hqf : q ∈ selectCkpts db t ns :=
        (selectCkpts_perm db t ns).mem_iff.mpr
          (List.mem_filter.mpr ⟨hq, decide_eq_true ⟨hqt, hqns⟩⟩)
      rw [hsel] at hqf
      rcases List.mem_cons.mp hqf with heq | hqrest
      · rw [heq]
        exact strLt_irrefl _
      · have hsort := selectCkpts_sorted db t ns
        rw [hsel] at hsort
        exact (List.pairwise_cons.mp hsort).1 q hqrest

/-- The C3 witness store: ids "a" < "b" < "c" inserted in shuffled order. -/
def dbC3W : DB :=
  ⟨[⟨"t", "", "b", none, "json", "b:pb", "mb"⟩,
    ⟨"t", "", "c", none, "json", "c:pc", "mc"⟩,
    ⟨"t", "", "a", none, "json", "a:pa", "ma"⟩], []⟩

def rowC3W : CkptRow := ⟨"t", "", "a", none, "json", "a:pa", "ma"⟩

/-- C3 witness: the amended theorem applied to the shuffled store. -/
theorem C3_witness :
    (∃ rmax : CkptRow,
      getTuple serde0 ⟨some ⟨some "t", some "", none⟩⟩ dbC3W =
        some (rowTuple serde0 dbC3W (rowConfig rmax) rmax) ∧
      rmax ∈ dbC3W.checkpoints ∧ rmax.thread_id = "t" ∧ rmax.checkpoint_ns = "" ∧
      (∀ q ∈ dbC3W.checkpoints, q.thread_id = "t" → q.checkpoint_ns = "" →
        strLt rmax.checkpoint_id q.checkpoint_id = false)) ∧
    (∀ db2 : DB, db2.checkpoints.Perm dbC3W.checkpoints → db2.writes = dbC3W.writes →
      getTuple serde0 ⟨some ⟨some "t", some "", none⟩⟩ db2 =
        getTuple serde0 ⟨some ⟨some "t", some "", none⟩⟩ dbC3W) ∧
    (∀ cid : String, cid ≠ "" →
      getTuple serde0 ⟨some ⟨some "t", some "", some cid⟩⟩ dbC3W =
        ((dbC3W.checkpoints.filter (fun q =>
            decide (q.thread_id = "t" ∧ q.checkpoint_ns = "" ∧ q.checkpoint_id = cid))).head?).map
          (fun row => rowTuple serde0 dbC3W ⟨some ⟨some "t", some "", some cid⟩⟩ row)) :=
  C3_latest_wins serde0 dbC3W "t" "" rowC3W (by decide) (by decide) (by decide) (by decide)

/-! Claim C5: the listing cursor. -/

/-- The options of a cursor listing: an exclusive bound and a count. -/
def cursorOpts (N : Nat) (X : String) : CheckpointListOptions :=
  ⟨some N, some ⟨some ⟨none, none, some X⟩⟩⟩

/-- C5 counterexample: with limit 0 the LIMIT clause is dropped (0 is falsy),
so the call yields one tuple instead of none; and with an empty before id the
bound is dropped, so a yielded id is not strictly below the bound. -/
def dbC5 : DB := ⟨[⟨"t", "", "a", none, "json", "a:pa", "ma"⟩], []⟩

theorem C5_counterexample :
    (list serde0 ⟨some ⟨some "t", some "", none⟩⟩ (cursorOpts 0 "b") dbC5).length = 1 ∧
    (list serde0 ⟨some ⟨some "t", some "", none⟩⟩ (cursorOpts 1 "") dbC5).map
      (fun tup => cfgKey tup.config) = [("t", "", "a")] ∧
    strLt "a" "" = false := by decide

/-- C5 amended: for every nonempty bound X and every count N at least 1,
list with before X and limit N yields at most N tuples, every yielded
checkpoint_id is strictly below X, and the sequence is strictly descending
by checkpoint_id. -/
theorem C5_listing_cursor (serde : Serde) (db : DB) (t ns X : String) (N : Nat)
    (hn : CkptKeysNodup db) (hX : X ≠ "") (hN : N ≠ 0) :
    (list serde ⟨some ⟨some t, some ns, none⟩⟩ (cursorOpts N X) db).length ≤ N ∧
    (∀ tup ∈ list serde ⟨some ⟨some t, some ns, none⟩⟩ (cursorOpts N X) db,
      strLt (cfgKey tup.config).2.2 X = true) ∧
    (list serde ⟨some ⟨some t, some ns, none⟩⟩ (cursorOpts N X) db).Pairwise
      (fun a b => strLt (cfgKey b.config).2.2 (cfgKey a.config).2.2 = true) := by
  have htrX : truthy (some X) = true := by simp [truthy, hX]
  have hL : list serde ⟨some ⟨some t, some ns, none⟩⟩ (cursorOpts N X) db =
      (listLimited db t ns (cursorOpts N X)).map
        (fun r => rowTuple serde db (rowConfig r) r) := rfl
  have hLL : listLimited db t ns (cursorOpts N X) =
      (listSorted db t ns (cursorOpts N X)).take N := by
    unfold listLimited cursorOpts
    dsimp only
    rw [if_pos hN]
  have hS : listSorted db t ns (cursorOpts N X) =
      List.insertionSort ckptGe (listFiltered db t ns (cursorOpts N X)) := rfl
  have hLF : listFiltered db t ns (cursorOpts N X) =
      (db.checkpoints.filter (cMatch t ns)).filter
        (fun r => strLt r.checkpoint_id X) := by
    unfold listFiltered
    rw [show beforeId (cursorOpts N X) = some X from rfl]
    rw [if_pos htrX]
    rfl
  have hids : ((listSorted db t ns (cursorOpts N X)).map CkptRow.checkpoint_id).Nodup := by
    have hsub : ((listFiltered db t ns (cursorOpts N X)).map CkptRow.checkpoint_id).Sublist
        ((db.checkpoints.filter (cMatch t ns)).map CkptRow.checkpoint_id) := by
      rw [hLF]
      exact List.Sublist.map _ (List.filter_sublist _)
    have hnf : ((listFiltered db t ns (cursorOpts N X)).map CkptRow.checkpoint_id).Nodup :=
      hsub.nodup (ckpt_ids_nodup db t ns hn)
    rw [hS]
    exact ((List.perm_insertionSort ckptGe _).map CkptRow.checkpoint_id).nodup_iff.mpr hnf
  have hsorted : (listSorted db t ns (cursorOpts N X)).Pairwise ckptGt := by
    apply pairwise_ckptGe_to_ckptGt _ hids
    rw [hS]
    exact List.sorted_insertionSort ckptGe _
  refine ⟨?_, ?_, ?_⟩
  · rw [hL, hLL, List.length_map, List.length_take]
    exact min_le_left _ _
  · intro tup htup
    rw [hL] at htup
    obtain ⟨r, hrmem, heq⟩ := List.mem_map.mp htup
    have hkey : (cfgKey tup.config).2.2 = r.checkpoint_id := by
      rw [← heq]
      rfl
    rw [hkey]
    rw [hLL] at hrmem
    have h1 : r ∈ listSorted db t ns (cursorOpts N X) :=
      (List.take_sublist _ _).subset hrmem
    rw [hS] at h1
    have h2 : r ∈ listFiltered db t ns (cursorOpts N X) :=
      (List.perm_insertionSort ckptGe _).mem_iff.mp h1
    rw [hLF] at h2
    exact (List.mem_filter.mp h2).2
  · rw [hL]
    apply List.pairwise_map.mpr
    have hP : (listLimited db t ns (cursorOpts N X)).Pairwise ckptGt := by
      rw [hLL]
      exact List.Pairwise.sublist (List.take_sublist _ _) hsorted
    exact hP.imp (fun {a b} h => h)

/-- The C5 witness store: three checkpoints under one thread. -/
def dbC5W : DB :=
  ⟨[⟨"t", "", "a", none, "json", "a:pa", "ma"⟩,
    ⟨"t", "", "c", none, "json", "c:pc", "mc"⟩,
    ⟨"t", "", "b", none, "json", "b:pb", "mb"⟩], []⟩

/-- C5 witness: the amended theorem applied with bound "c" and count 2. -/
theorem C5_witness :
    (list serde0 ⟨some ⟨some "t", some "", none⟩⟩ (cursorOpts 2 "c") dbC5W).length ≤ 2 ∧
    (∀ tup ∈ list serde0 ⟨some ⟨some "t", some "", none⟩⟩ (cursorOpts 2 "c") dbC5W,
      strLt (cfgKey tup.config).2.2 "c" = true) ∧
    (list serde0 ⟨some ⟨some "t", some "", none⟩⟩ (cursorOpts 2 "c") dbC5W).Pairwise
      (fun a b => strLt (cfgKey b.config).2.2 (cfgKey a.config).2.2 = true) :=
  C5_listing_cursor serde0 dbC5W "t" "" "c" 2 (by decide) (by decide) (by decide)

/-! Claim C1: the put / getTuple round trip. -/

/-- The C1 counterexample store: a checkpoint "z" already present. -/
def dbC1 : DB := ⟨[⟨"t", "", "z", none, "json", "z:pz", "mz"⟩], []⟩

/-- C1 counterexample. First: a ref containing an (empty) thread_id makes
put fail outright, so no tuple is returned at all. Second: with a checkpoint
whose id is empty, put succeeds, but the returned ref carries a falsy
checkpoint_id, so getTuple resolves the latest row "z" instead of the stored
checkpoint — even though the adapter inverts encoding on these values. -/
theorem C1_counterexample :
    ((put serde0 ⟨some ⟨some "", none, none⟩⟩ ⟨"c1", "x"⟩ "m" DB.empty).2 =
      Except.error SaverError.missingThreadId) ∧
    (serde0.loadsCkpt "json" (serde0.dumpsCkpt ⟨"", "x"⟩).2 = ⟨"", "x"⟩ ∧
      serde0.loadsMeta "json" (serde0.dumpsMeta "m").2 = "m" ∧
      (serde0.dumpsCkpt ⟨"", "x"⟩).1 = (serde0.dumpsMeta "m").1 ∧
      (put serde0 ⟨some ⟨some "t", some "", none⟩⟩ ⟨"", "x"⟩ "m" dbC1).2 =
        Except.ok ⟨some ⟨some "t", some "", some ""⟩⟩ ∧
      (getTuple serde0 ⟨some ⟨some "t", some "", some ""⟩⟩
          (put serde0 ⟨some ⟨some "t", some "", none⟩⟩ ⟨"", "x"⟩ "m" dbC1).1).map
        (fun tup => tup.checkpoint) = some ⟨"z", "pz"⟩ ∧
      (⟨"z", "pz"⟩ : Checkpoint) ≠ ⟨"", "x"⟩) := by decide

/-- One successful put evaluated: the guards pass and the row is upserted. -/
theorem put_ok (serde : Serde) (db : DB) (t : String) (nsOpt pidOpt : Option String)
    (C : Checkpoint) (M : Metadata) (ht : t ≠ "")
    (htag : (serde.dumpsCkpt C).1 = (serde.dumpsMeta M).1) :
    put serde ⟨some ⟨some t, nsOpt, pidOpt⟩⟩ C M db =
      (upsertCkpt db ⟨t, nsOpt.getD "", C.id, pidOpt,
          (serde.dumpsCkpt C).1, (serde.dumpsCkpt C).2, (serde.dumpsMeta M).2⟩,
        Except.ok ⟨some ⟨some t, some (nsOpt.getD ""), some C.id⟩⟩) := by
  unfold put
  dsimp only
  rw [if_neg (show ¬ truthy (some t) = false by simp [truthy, ht])]
  rw [if_neg (show ¬ (serde.dumpsCkpt C).1 ≠ (serde.dumpsMeta M).1 from fun hh => hh htag)]
  rfl

/-- C1 amended: for every ref with a nonempty thread_id, every checkpoint C
with a nonempty id and every metadata M serializing to the same type tag,
if decoding inverts encoding at C and at M then put followed by getTuple on
the returned reference yields a tuple whose checkpoint is C and whose
metadata is M. -/
theorem C1_put_getTuple_roundtrip (serde : Serde) (db : DB) (t : String)
    (nsOpt pidOpt : Option String) (C : Checkpoint) (M : Metadata)
    (ht : t ≠ "") (hid : C.id ≠ "")
    (htag : (serde.dumpsCkpt C).1 = (serde.dumpsMeta M).1)
    (hC : serde.loadsCkpt (serde.dumpsCkpt C).1 (serde.dumpsCkpt C).2 = C)
    (hM : serde.loadsMeta (serde.dumpsMeta M).1 (serde.dumpsMeta M).2 = M) :
    ∃ ref : RunnableConfig,
      (put serde ⟨some ⟨some t, nsOpt, pidOpt⟩⟩ C M db).2 = Except.ok ref ∧
      ∃ tup : CheckpointTuple,
        getTuple serde ref (put serde ⟨some ⟨some t, nsOpt, pidOpt⟩⟩ C M db).1 = some tup ∧
        tup.checkpoint = C ∧ tup.metadata = M := by
  rw [put_ok serde db t nsOpt pidOpt C M ht htag]
  refine ⟨⟨some ⟨some t, some (nsOpt.getD ""), some C.id⟩⟩, rfl, ?_⟩
  set row : CkptRow := ⟨t, nsOpt.getD "", C.id, pidOpt,
    (serde.dumpsCkpt C).1, (serde.dumpsCkpt C).2, (serde.dumpsMeta M).2⟩ with hrow
  have hfil : (upsertCkpt db row).checkpoints.filter (fun q =>
      decide (q.thread_id = t ∧ q.checkpoint_ns = nsOpt.getD "" ∧ q.checkpoint_id = C.id)) =
      [row] := by
    show (db.checkpoints.filter (fun q => decide (ckptKey q ≠ ckptKey row)) ++ [row]).filter _ = _
    rw [List.filter_append]
    have h1 : (db.checkpoints.filter (fun q => decide (ckptKey q ≠ ckptKey row))).filter
        (fun q => decide (q.thread_id = t ∧ q.checkpoint_ns = nsOpt.getD "" ∧
          q.checkpoint_id = C.id)) = [] := by
      rw [List.filter_filter]
      apply List.filter_eq_nil_iff.mpr
      intro q _
      by_cases hk : ckptKey q = ckptKey row
      · simp [hk]
      · have : ¬ (q.thread_id = t ∧ q.checkpoint_ns = nsOpt.getD "" ∧ q.checkpoint_id = C.id) := by
          intro hc
          apply hk
          unfold ckptKey
          rw [hc.1, hc.2.1, hc.2.2]
        simp [this]
    have h2 : ([row] : List CkptRow).filter (fun q =>
        decide (q.thread_id = t ∧ q.checkpoint_ns = nsOpt.getD "" ∧
          q.checkpoint_id = C.id)) = [row] := by
      rw [List.filter_cons, if_pos (decide_eq_true ⟨rfl, rfl, rfl⟩)]
      rfl
    rw [h1, h2]
    rfl
  rw [getTuple_exact serde (upsertCkpt db row) t (nsOpt.getD "") C.id hid]
  rw [hfil]
  refine ⟨_, rfl, ?_, ?_⟩
  · show serde.loadsCkpt row.type row.checkpoint = C
    exact hC
  · show serde.loadsMeta row.type row.metadata = M
    rw [hrow]
    show serde.loadsMeta (serde.dumpsCkpt C).1 (serde.dumpsMeta M).2 = M
    rw [htag]
    exact hM

/-- C1 witness: the amended round trip at a concrete store and checkpoint. -/
theorem C1_witness :
    ∃ ref : RunnableConfig,
      (put serde0 ⟨some ⟨some "t", some "", none⟩⟩ ⟨"c1", "x"⟩ "m" DB.empty).2 =
        Except.ok ref ∧
      ∃ tup : CheckpointTuple,
        getTuple serde0 ref
          (put serde0 ⟨some ⟨some "t", some "", none⟩⟩ ⟨"c1", "x"⟩ "m" DB.empty).1 = some tup ∧
        tup.checkpoint = ⟨"c1", "x"⟩ ∧ tup.metadata = "m" :=
  C1_put_getTuple_roundtrip serde0 DB.empty "t" (some "") none ⟨"c1", "x"⟩ "m"
    (by decide) (by decide) (by decide) (by decide) (by decide)

/-! Claim C4: the no-orphan-writes invariant. -/

/-- Store states reachable from the empty store by the mutating operations. -/
inductive Reachable : DB → Prop where
  | empty : Reachable DB.empty
  | putStep : ∀ {db : DB} (serde : Serde) (cfg : RunnableConfig) (ckpt : Checkpoint)
      (meta : Metadata), Reachable db → Reachable (put serde cfg ckpt meta db).1
  | putWritesStep : ∀ {db : DB} (serde : Serde) (cfg : RunnableConfig)
      (writes : List (String × Value)) (taskId : String),
      Reachable db → Reachable (putWrites serde cfg writes taskId db).1
  | deleteThreadStep : ∀ {db : DB} (threadId : String),
      Reachable db → Reachable (deleteThread db threadId)

/-- Every write row references an existing checkpoint row. -/
abbrev NoOrphans (db : DB) : Prop :=
  ∀ w ∈ db.writes, ∃ c ∈ db.checkpoints,
    c.thread_id = w.thread_id ∧ c.checkpoint_ns = w.checkpoint_ns ∧
    c.checkpoint_id = w.checkpoint_id

/-- C4 counterexample: one putWrites call from the empty store creates a
pending write although its checkpoint was never persisted — the reachable
state violates the invariant. -/
def dbC4 : DB :=
  (putWrites serde0 ⟨some ⟨some "t", none, some "c"⟩⟩ [("ch", "v")] "task" DB.empty).1

theorem C4_counterexample : Reachable dbC4 ∧ ¬ NoOrphans dbC4 :=
  ⟨Reachable.putWritesStep serde0 ⟨some ⟨some "t", none, some "c"⟩⟩ [("ch", "v")] "task"
      Reachable.empty,
    by decide⟩

/-- Reachability under the discipline the spec assumes of callers: every
putWrites call names a checkpoint key existing at call time. -/
inductive GuardedReachable : DB → Prop where
  | empty : GuardedReachable DB.empty
  | putStep : ∀ {db : DB} (serde : Serde) (cfg : RunnableConfig) (ckpt : Checkpoint)
      (meta : Metadata), GuardedReachable db → GuardedReachable (put serde cfg ckpt meta db).1
  | putWritesStep : ∀ {db : DB} (serde : Serde) (cfg : RunnableConfig)
      (writes : List (String × Value)) (taskId : String),
      GuardedReachable db →
      (∃ c ∈ db.checkpoints, ckptKey c = cfgKey cfg) →
      GuardedReachable (putWrites serde cfg writes taskId db).1
  | deleteThreadStep : ∀ {db : DB} (threadId : String),
      GuardedReachable db → GuardedReachable (deleteThread db threadId)

theorem noOrphans_upsertCkpt (db : DB) (row : CkptRow) (h : NoOrphans db) :
    NoOrphans (upsertCkpt db row) := by
  intro w hw
  obtain ⟨c, hc, h1, h2, h3⟩ := h w hw
  by_cases hk : ckptKey c = ckptKey row
  · have e1 : c.thread_id = row.thread_id := congrArg (fun p => p.1) hk
    have e2 : c.checkpoint_ns = row.checkpoint_ns := congrArg (fun p => p.2.1) hk
    have e3 : c.checkpoint_id = row.checkpoint_id := congrArg (fun p => p.2.2) hk
    exact ⟨row, List.mem_append.mpr (Or.inr (List.mem_singleton.mpr rfl)),
      e1 ▸ h1, e2 ▸ h2, e3 ▸ h3⟩
  · exact ⟨c, List.mem_append_left _ (List.mem_filter.mpr ⟨hc, decide_eq_true hk⟩), h1, h2, h3⟩

theorem put_fst (serde : Serde) (cfg : RunnableConfig) (ckpt : Checkpoint)
    (meta : Metadata) (db : DB) :
    (put serde cfg ckpt meta db).1 = db ∨
    ∃ row : CkptRow, (put serde cfg ckpt meta db).1 = upsertCkpt db row := by
  obtain ⟨conf⟩ := cfg
  cases conf with
  | none => exact Or.inl rfl
  | some c =>
    unfold put
    dsimp only
    cases ht : truthy c.thread_id with
    | false =>
      rw [if_pos rfl]
      exact Or.inl rfl
    | true =>
      rw [if_neg (show ¬ (true = false) by decide)]
      by_cases htag : (serde.dumpsCkpt ckpt).1 ≠ (serde.dumpsMeta meta).1
      · rw [if_pos htag]
        exact Or.inl rfl
      · rw [if_neg htag]
        exact Or.inr ⟨_, rfl⟩

theorem putWrites_fst (serde : Serde) (cfg : RunnableConfig)
    (writes : List (String × Value)) (taskId : String) (db : DB) :
    (putWrites serde cfg writes taskId db).1 = db ∨
    ((putWrites serde cfg writes taskId db).1.checkpoints = db.checkpoints ∧
      ∀ w ∈ (putWrites serde cfg writes taskId db).1.writes,
        w ∈ db.writes ∨ wCkptKey w = cfgKey cfg) := by
  obtain ⟨conf⟩ := cfg
  cases conf with
  | none => exact Or.inl rfl
  | some c =>
    unfold putWrites
    dsimp only
    cases ht : truthy c.thread_id with
    | false =>
      rw [if_pos rfl]
      exact Or.inl rfl
    | true =>
      rw [if_neg (show ¬ (true = false) by decide)]
      cases hcid : truthy c.checkpoint_id with
      | false =>
        rw [if_pos rfl]
        exact Or.inl rfl
      | true =>
        rw [if_neg (show ¬ (true = false) by decide)]
        refine Or.inr ⟨?_, ?_⟩
        · rw [foldl_upsert_enum]
          exact foldl_upsertWrite_checkpoints _ _
        · intro w hw
          rw [foldl_upsert_enum,
            foldl_upsertWrite_writes _ _ (batchRows_keys_nodup serde _ _ _ _ _)] at hw
          rcases List.mem_append.mp hw with hl | hr
          · exact Or.inl (List.mem_filter.mp hl).1
          · right
            obtain ⟨p, _, heq⟩ := List.mem_map.mp hr
            rw [← heq]
            rfl

theorem noOrphans_deleteThread (db : DB) (threadId : String) (h : NoOrphans db) :
    NoOrphans (deleteThread db threadId) := by
  intro w hw
  have hw2 := List.mem_filter.mp hw
  have hwt : w.thread_id ≠ threadId := of_decide_eq_true hw2.2
  obtain ⟨c, hc, h1, h2, h3⟩ := h w hw2.1
  refine ⟨c, List.mem_filter.mpr ⟨hc, decide_eq_true ?_⟩, h1, h2, h3⟩
  rw [h1]
  exact hwt

/-- C4 amended: putWrites does not check that the referenced checkpoint
exists, so an orphaned write is reachable (see the counterexample); under
the discipline that every putWrites call names a checkpoint existing at call
time, every reachable store state satisfies the no-orphan invariant. -/
theorem C4_no_orphans (db : DB) (h : GuardedReachable db) : NoOrphans db := by
  induction h with
  | empty =>
    intro w hw
    exact absurd hw (List.not_mem_nil _)
  | putStep serde cfg ckpt meta _ ih =>
    rcases put_fst serde cfg ckpt meta _ with heq | ⟨row, heq⟩
    · rw [heq]
      exact ih
    · rw [heq]
      exact noOrphans_upsertCkpt _ row ih
  | putWritesStep serde cfg writes taskId _ hex ih =>
    rcases putWrites_fst serde cfg writes taskId _ with heq | ⟨hck, hws⟩
    · rw [heq]
      exact ih
    · intro w hw
      rcases hws w hw with hold | hnew
      · obtain ⟨c, hc, h1, h2, h3⟩ := ih w hold
        exact ⟨c, hck ▸ hc, h1, h2, h3⟩
      · obtain ⟨c, hc, hkey⟩ := hex
        have a1 : c.thread_id = (cfgKey cfg).1 := congrArg (fun p => p.1) hkey
        have a2 : c.checkpoint_ns = (cfgKey cfg).2.1 := congrArg (fun p => p.2.1) hkey
        have a3 : c.checkpoint_id = (cfgKey cfg).2.2 := congrArg (fun p => p.2.2) hkey
        have b1 : w.thread_id = (cfgKey cfg).1 := congrArg (fun p => p.1) hnew
        have b2 : w.checkpoint_ns = (cfgKey cfg).2.1 := congrArg (fun p => p.2.1) hnew
        have b3 : w.checkpoint_id = (cfgKey cfg).2.2 := congrArg (fun p => p.2.2) hnew
        exact ⟨c, hck ▸ hc, a1.trans b1.symm, a2.trans b2.symm, a3.trans b3.symm⟩
  | deleteThreadStep threadId _ ih =>
    exact noOrphans_deleteThread _ threadId ih

/-- The C4 witness store: a checkpoint persisted first, then a write
attached to it. -/
def dbC4W : DB :=
  (putWrites serde0 ⟨some ⟨some "t", some "", some "c1"⟩⟩ [("ch", "v")] "task"
    (put serde0 ⟨some ⟨some "t", some "", none⟩⟩ ⟨"c1", "x"⟩ "m" DB.empty).1).1

/-- C4 witness: the amended invariant at the concrete guarded trace. -/
theorem C4_witness : NoOrphans dbC4W :=
  C4_no_orphans dbC4W
    (GuardedReachable.putWritesStep serde0 ⟨some ⟨some "t", some "", some "c1"⟩⟩
      [("ch", "v")] "task"
      (GuardedReachable.putStep serde0 ⟨some ⟨some "t", some "", none⟩⟩ ⟨"c1", "x"⟩ "m"
        GuardedReachable.empty)
      (by decide))

/-! Claim C9: the size guard and oversize recovery of initialize. -/

theorem saveToDisk_db (x : Saver) : (saveToDisk x).db = x.db := by
  unfold saveToDisk
  split
  · rfl
  · rfl

theorem dbSetup_db (x : Saver) : (dbSetup x).db = x.db := by
  unfold dbSetup
  split
  · rfl
  · rw [saveToDisk_db]

/-- C9: with an existing backing file, a fresh initialize loads the file
image exactly when its size is at or under the 100MB ceiling (leaving the
file system untouched); over the ceiling the contents are never loaded —
the engine starts empty — and the file is renamed to the backup path, or,
when the rename throws, deleted. -/
theorem C9_oversize_recovery (s : Saver) (fs : FS) (f : BackingFile)
    (renameFails unlinkFails : Bool)
    (hmain : fs.main = some f) (hfresh : s.db = none) :
    (f.size ≤ MAX_DB_SIZE →
      (initSaver s fs renameFails unlinkFails).1.db = some f.image ∧
      (initSaver s fs renameFails unlinkFails).2 = fs) ∧
    (f.size > MAX_DB_SIZE →
      (initSaver s fs renameFails unlinkFails).1.db = some DB.empty ∧
      (renameFails = false →
        (initSaver s fs renameFails unlinkFails).2 = ⟨none, some f⟩) ∧
      (renameFails = true → unlinkFails = false →
        (initSaver s fs renameFails unlinkFails).2 = ⟨none, fs.backup⟩)) := by
  unfold initSaver
  rw [if_neg (show ¬ s.db.isSome = true by rw [hfresh]; decide)]
  rw [hmain]
  dsimp only
  constructor
  · intro hle
    rw [if_neg (not_lt.mpr hle)]
    exact ⟨by rw [dbSetup_db], rfl⟩
  · intro hgt
    rw [if_pos hgt]
    refine ⟨by rw [dbSetup_db], ?_, ?_⟩
    · intro hrf
      rw [hrf]
      rfl
    · intro hrt huf
      rw [hrt, huf]
      rfl

/-- An oversize backing file for the C9 witness. -/
def bigFile : BackingFile := ⟨104857601, dbC1⟩

def fsC9 : FS := ⟨some bigFile, none⟩

def freshSaver : Saver := ⟨none, false, false, false⟩

/-- C9 witness: the theorem applied to a concrete oversize file. -/
theorem C9_witness :
    (bigFile.size ≤ MAX_DB_SIZE →
      (initSaver freshSaver fsC9 false false).1.db = some bigFile.image ∧
      (initSaver freshSaver fsC9 false false).2 = fsC9) ∧
    (bigFile.size > MAX_DB_SIZE →
      (initSaver freshSaver fsC9 false false).1.db = some DB.empty ∧
      (false = false →
        (initSaver freshSaver fsC9 false false).2 = ⟨none, some bigFile⟩) ∧
      (false = true → false = false →
        (initSaver freshSaver fsC9 false false).2 = ⟨none, fsC9.backup⟩)) :=
  C9_oversize_recovery freshSaver fsC9 bigFile false false (by decide) (by decide)

/-! Claim C10: reads and the persistence scheduler state. -/

/-- C10 counterexample: on a store that is not yet initialized, a getTuple
call initializes the engine, and the schema setup marks the store dirty and
arms the debounce timer — the read does not leave the scheduler state as it
was. -/
theorem C10_counterexample :
    (getTupleS serde0 ⟨some ⟨some "t", none, none⟩⟩ freshSaver ⟨none, none⟩
        false false).1.1.dirty = true ∧
    (getTupleS serde0 ⟨some ⟨some "t", none, none⟩⟩ freshSaver ⟨none, none⟩
        false false).1.1.timerArmed = true ∧
    freshSaver.dirty = false ∧ freshSaver.timerArmed = false := by decide

/-- C10 amended: on every initialized store state, getTuple and list —
however far the generator is consumed — leave the tables, the dirty flag,
the debounce timer and the backing file exactly as they were, and return
pure functions of the tables: a read never marks the store dirty and never
arms or re-arms a flush. -/
theorem C10_reads_pure (serde : Serde) (cfg : RunnableConfig) (opts : CheckpointListOptions)
    (s : Saver) (fs : FS) (renameFails unlinkFails : Bool) (d : DB) (hd : s.db = some d) :
    getTupleS serde cfg s fs renameFails unlinkFails = ((s, fs), getTuple serde cfg d) ∧
    listS serde cfg opts s fs renameFails unlinkFails = ((s, fs), list serde cfg opts d) := by
  have hi : initSaver s fs renameFails unlinkFails = (s, fs) := by
    unfold initSaver
    rw [if_pos (show s.db.isSome = true by rw [hd]; rfl)]
  constructor
  · unfold getTupleS
    rw [hi]
    dsimp only
    rw [hd]
    rfl
  · unfold listS
    rw [hi]
    dsimp only
    rw [hd]
    rfl

/-- An initialized saver for the C10 witness. -/
def readySaver : Saver := ⟨some dbC1, true, false, false⟩

/-- C10 witness: the amended purity statement at a concrete ready store. -/
theorem C10_witness :
    getTupleS serde0 ⟨some ⟨some "t", none, none⟩⟩ readySaver ⟨none, none⟩ false false =
      ((readySaver, ⟨none, none⟩), getTuple serde0 ⟨some ⟨some "t", none, none⟩⟩ dbC1) ∧
    listS serde0 ⟨some ⟨some "t", none, none⟩⟩ ⟨none, none⟩ readySaver ⟨none, none⟩ false false =
      ((readySaver, ⟨none, none⟩), list serde0 ⟨some ⟨some "t", none, none⟩⟩ ⟨none, none⟩ dbC1) :=
  C10_reads_pure serde0 ⟨some ⟨some "t", none, none⟩⟩ ⟨none, none⟩ readySaver ⟨none, none⟩
    false false dbC1 (by decide)

/-! Key uniqueness holds in every reachable store state, which justifies the
CkptKeysNodup and WriteKeysNodup hypotheses of the claims above. -/

theorem ckptKeysNodup_upsertCkpt (db : DB) (r : CkptRow) (h : CkptKeysNodup db) :
    CkptKeysNodup (upsertCkpt db r) := by
  show ((db.checkpoints.filter (fun q => decide (ckptKey q ≠ ckptKey r)) ++ [r]).map
    ckptKey).Nodup
  rw [List.map_append]
  apply List.Nodup.append
  · exact (List.Sublist.map ckptKey (List.filter_sublist _)).nodup h
  · exact List.nodup_singleton _
  · rw [List.map_singleton, List.disjoint_singleton]
    intro hmem
    obtain ⟨q, hq, hkey⟩ := List.mem_map.mp hmem
    exact absurd hkey (of_decide_eq_true (List.mem_filter.mp hq).2)

/-- The shape of a successful putWrites result. -/
theorem putWrites_shape (serde : Serde) (cfg : RunnableConfig)
    (writes : List (String × Value)) (taskId : String) (db : DB) :
    (putWrites serde cfg writes taskId db).1 = db ∨
    ∃ t ns cid : String, (putWrites serde cfg writes taskId db).1 =
      { checkpoints := db.checkpoints,
        writes := db.writes.filter (fun w => decide (writeKey w ∉
            (batchRows serde t ns cid taskId writes).map writeKey)) ++
          batchRows serde t ns cid taskId writes } := by
  obtain ⟨conf⟩ := cfg
  cases conf with
  | none => exact Or.inl rfl
  | some c =>
    unfold putWrites
    dsimp only
    cases ht : truthy c.thread_id with
    | false =>
      rw [if_pos rfl]
      exact Or.inl rfl
    | true =>
      rw [if_neg (show ¬ (true = false) by decide)]
      cases hcid : truthy c.checkpoint_id with
      | false =>
        rw [if_pos rfl]
        exact Or.inl rfl
      | true =>
        rw [if_neg (show ¬ (true = false) by decide)]
        refine Or.inr ⟨c.thread_id.getD "", c.checkpoint_ns.getD "", c.checkpoint_id.getD "", ?_⟩
        have hw := foldl_upsertWrite_writes
          (batchRows serde (c.thread_id.getD "") (c.checkpoint_ns.getD "")
            (c.checkpoint_id.getD "") taskId writes) db
          (batchRows_keys_nodup serde _ _ _ _ _)
        have hc := foldl_upsertWrite_checkpoints
          (batchRows serde (c.thread_id.getD "") (c.checkpoint_ns.getD "")
            (c.checkpoint_id.getD "") taskId writes) db
        rw [foldl_upsert_enum]
        cases hres : List.foldl upsertWrite db
            (batchRows serde (c.thread_id.getD "") (c.checkpoint_ns.getD "")
              (c.checkpoint_id.getD "") taskId writes) with
    | mk cks ws =>
        rw [hres] at hw hc
        rw [show ({ checkpoints := cks, writes := ws } : DB).writes = ws from rfl] at hw
        rw [show ({ checkpoints := cks, writes := ws } : DB).checkpoints = cks from rfl] at hc
        rw [hw, hc]

theorem writeKeysNodup_putWrites (serde : Serde) (cfg : RunnableConfig)
    (writes : List (String × Value)) (taskId : String) (db : DB)
    (h : WriteKeysNodup db) : WriteKeysNodup (putWrites serde cfg writes taskId db).1 := by
  rcases putWrites_shape serde cfg writes taskId db with heq | ⟨t, ns, cid, heq⟩
  · rw [heq]
    exact h
  · rw [heq]
    show ((db.writes.filter _ ++ batchRows serde t ns cid taskId writes).map writeKey).Nodup
    rw [List.map_append]
    apply List.Nodup.append
    · exact (List.Sublist.map writeKey (List.filter_sublist _)).nodup h
    · exact batchRows_keys_nodup serde t ns cid taskId writes
    · intro a ha hb
      obtain ⟨q, hq, hkey⟩ := List.mem_map.mp ha
      have hnot := of_decide_eq_true (List.mem_filter.mp hq).2
      rw [← hkey] at hb
      exact hnot hb

/-- Every reachable store state has unique keys in both tables. -/
theorem reachable_keys_nodup (db : DB) (h : Reachable db) :
    CkptKeysNodup db ∧ WriteKeysNodup db := by
  induction h with
  | empty => exact ⟨List.nodup_nil, List.nodup_nil⟩
  | putStep serde cfg ckpt meta _ ih =>
    rcases put_fst serde cfg ckpt meta _ with heq | ⟨row, heq⟩
    · rw [heq]
      exact ih
    · rw [heq]
      exact ⟨ckptKeysNodup_upsertCkpt _ row ih.1, ih.2⟩
  | putWritesStep serde cfg writes taskId _ ih =>
    refine ⟨?_, writeKeysNodup_putWrites serde cfg writes taskId _ ih.2⟩
    rcases putWrites_shape serde cfg writes taskId _ with heq | ⟨t, ns, cid, heq⟩
    · rw [heq]
      exact ih.1
    · rw [heq]
      exact ih.1
  | deleteThreadStep threadId _ ih =>
    constructor
    · exact (List.Sublist.map ckptKey (List.filter_sublist _)).nodup ih.1
    · exact (List.Sublist.map writeKey (List.filter_sublist _)).nodup ih.2
